import Mathlib

set_option maxHeartbeats 1000000

/-!
Verification of the BlenderGIS basemaps tile engine, a shallow embedding of
`basemaps/mapviewer.py`.

Conventions of the embedding:
* Python floats are modelled as exact rationals (`ℚ`); `math.floor` is `Int.floor`.
* Python integers are `ℤ` (or `ℕ` where the source only ever passes naturals,
  e.g. zoom levels used as list indices and exponents).
* A Python expression that can raise is modelled with `Option`/`Except`:
  `none`/`.error` means the exception propagates.
* The sqlite tile container is modelled as explicit table states; each
  GeoPackage method is a function on that state, mirroring its SQL.
-/

namespace Mapviewer

/-- Raw tile bytes (the content of a `BLOB` column / an HTTP body). -/
abbrev Bytes := List Nat

/-! ## TileMatrix (mapviewer.py lines 334-447) -/

/-- Origin corner policy of a tile matrix (the `originLoc` grid attribute).
`TileMatrix.__init__` raises `NotImplementedError` for anything else, so only
these two values can occur in a constructed matrix. -/
inductive OriginLoc where
  | NW
  | SW
deriving DecidableEq

/-- Resolution configuration of a grid definition: either an explicit
`resolutions` list or the derived `initRes` / `resFactor` pair
(lines 353-372 of `TileMatrix.__init__`). -/
inductive ResCfg where
  | explicitList (resolutions : List ℚ)
  | computed (initRes resFactor : ℚ)
deriving DecidableEq

/-- A constructed `TileMatrix`: the attributes that `__init__` has already
derived from the grid definition (projected bbox, origin policy, tile pixel
size, resolution configuration, level count). -/
structure TileMatrix where
  CRS : ℤ
  tileSize : ℕ
  originLoc : OriginLoc
  xmin : ℚ
  ymin : ℚ
  xmax : ℚ
  ymax : ℚ
  rescfg : ResCfg
  nbLevels : ℕ
deriving DecidableEq

namespace TileMatrix

/-- Line 377/379: `self.originx = self.xmin` for both origin policies. -/
def originx (tm : TileMatrix) : ℚ := tm.xmin

/-- Lines 376-379: `originy = ymax` for NW origin, `ymin` for SW origin. -/
def originy (tm : TileMatrix) : ℚ :=
  match tm.originLoc with
  | .NW => tm.ymax
  | .SW => tm.ymin

/-- Property `globalbbox` (lines 383-385). -/
def globalbbox (tm : TileMatrix) : ℚ × ℚ × ℚ × ℚ :=
  (tm.xmin, tm.ymin, tm.xmax, tm.ymax)

/-- `TileMatrix.getRes` (lines 409-416).  With an explicit resolution list the
source clamps `zoom` to `len(self.resolutions)` (not `len - 1`) and then
indexes; `resolutions[len]` is out of range, so `none` models the resulting
`IndexError`.  Without an explicit list the resolution is computed as
`initRes / resFactor**zoom`. -/
def getRes (tm : TileMatrix) (zoom : ℕ) : Option ℚ :=
  match tm.rescfg with
  | .explicitList resolutions =>
      let z := if zoom > resolutions.length then resolutions.length else zoom
      resolutions.get? z
  | .computed initRes resFactor => some (initRes / resFactor ^ zoom)

/-- `TileMatrix.getResList` (lines 403-407). -/
def getResList (tm : TileMatrix) : List ℚ :=
  match tm.rescfg with
  | .explicitList resolutions => resolutions
  | .computed initRes resFactor =>
      (List.range tm.nbLevels).map (fun zoom => initRes / resFactor ^ zoom)

/-- `TileMatrix.getTileNumber` (lines 419-432): projected coords to tile
indices, `col = floor(dx / geoTileSize)`, `row = floor(dy / geoTileSize)`
with `dy` measured downward from the origin for NW grids and upward for SW
grids.  `none` propagates an `IndexError` from `getRes`. -/
def getTileNumber (tm : TileMatrix) (x y : ℚ) (zoom : ℕ) : Option (ℤ × ℤ) :=
  match tm.getRes zoom with
  | none => none
  | some res =>
      let geoTileSize : ℚ := (tm.tileSize : ℚ) * res
      let dx : ℚ := x - tm.originx
      let dy : ℚ :=
        match tm.originLoc with
        | .NW => tm.originy - y
        | .SW => y - tm.originy
      some (⌊dx / geoTileSize⌋, ⌊dy / geoTileSize⌋)

/-- `TileMatrix.getTileCoords` (lines 434-447): tile indices to the projected
coordinate of the tile corner.  For a SW origin the source first computes the
bottom-left corner and then adds one tile height (`y += geoTileSize`) so that
both conventions return a top-left coordinate. -/
def getTileCoords (tm : TileMatrix) (col row : ℤ) (zoom : ℕ) : Option (ℚ × ℚ) :=
  match tm.getRes zoom with
  | none => none
  | some res =>
      let geoTileSize : ℚ := (tm.tileSize : ℚ) * res
      let x : ℚ := tm.originx + col * geoTileSize
      let y : ℚ :=
        match tm.originLoc with
        | .NW => tm.originy - row * geoTileSize
        | .SW => tm.originy + row * geoTileSize + geoTileSize
      some (x, y)

end TileMatrix

/-! ## C1: round trip getTileCoords / getTileNumber -/

/-- A concrete SW-origin tile matrix used for counterexamples. -/
def tmSW : TileMatrix :=
  { CRS := 3857, tileSize := 256, originLoc := .SW,
    xmin := 0, ymin := 0, xmax := 1000, ymax := 1000,
    rescfg := .computed 1 2, nbLevels := 24 }

/-- A concrete NW-origin tile matrix used for witnesses. -/
def tmNW : TileMatrix :=
  { CRS := 3857, tileSize := 256, originLoc := .NW,
    xmin := 0, ymin := 0, xmax := 1000, ymax := 1000,
    rescfg := .computed 1 2, nbLevels := 24 }

/-- C1 (counterexample): the round trip is not the identity for a SW-origin
matrix.  On `tmSW` at zoom 0 (resolution 1, tile height 256),
`getTileCoords 0 0` returns the top-left coordinate `(0, 256)`, and feeding it
back to `getTileNumber` yields row 1, not row 0. -/
theorem C1_roundtrip_cex :
    tmSW.getTileCoords 0 0 0 = some (0, 256) ∧
    tmSW.getTileNumber 0 256 0 = some (0, 1) ∧
    tmSW.getTileNumber 0 256 0 ≠ some (0, 0) := by
  refine ⟨?_, ?_, ?_⟩ <;>
    norm_num [tmSW, TileMatrix.getTileCoords, TileMatrix.getTileNumber,
      TileMatrix.getRes, TileMatrix.originx, TileMatrix.originy]

/-- C1 (amended): for every tile matrix with positive tile size, every zoom
level whose resolution is defined and positive, and all integer tile indices,
`getTileNumber` applied to `getTileCoords col row zoom` returns `(col, row)`
when the origin policy is NW, and `(col, row + 1)` when it is SW (because the
SW branch of `getTileCoords` shifts the returned y up one tile height to the
top edge of the tile). -/
theorem getTileCoords_getTileNumber_roundtrip (tm : TileMatrix) (col row : ℤ)
    (zoom : ℕ) (res : ℚ) (hres : tm.getRes zoom = some res) (hpos : 0 < res)
    (hts : 0 < tm.tileSize) (x y : ℚ)
    (hc : tm.getTileCoords col row zoom = some (x, y)) :
    tm.getTileNumber x y zoom =
      some (col, match tm.originLoc with | .NW => row | .SW => row + 1) := by
  have hg : ((tm.tileSize : ℚ) * res) ≠ 0 := by
    have h1 : (0 : ℚ) < (tm.tileSize : ℚ) := by exact_mod_cast hts
    positivity
  unfold TileMatrix.getTileCoords at hc
  unfold TileMatrix.getTileNumber
  rw [hres] at hc ⊢
  simp only [Option.some.injEq, Prod.mk.injEq] at hc
  obtain ⟨hx, hy⟩ := hc
  cases hLoc : tm.originLoc with
  | NW =>
      rw [hLoc] at hy
      simp only
      congr 1
      refine Prod.ext ?_ ?_
      · show ⌊(x - tm.originx) / ((tm.tileSize : ℚ) * res)⌋ = col
        rw [← hx]
        rw [add_sub_cancel_left, mul_div_cancel_right₀ _ hg, Int.floor_intCast]
      · show ⌊(tm.originy - y) / ((tm.tileSize : ℚ) * res)⌋ = row
        rw [← hy]
        rw [sub_sub_cancel, mul_div_cancel_right₀ _ hg, Int.floor_intCast]
  | SW =>
      rw [hLoc] at hy
      simp only
      congr 1
      refine Prod.ext ?_ ?_
      · show ⌊(x - tm.originx) / ((tm.tileSize : ℚ) * res)⌋ = col
        rw [← hx]
        rw [add_sub_cancel_left, mul_div_cancel_right₀ _ hg, Int.floor_intCast]
      · show ⌊(y - tm.originy) / ((tm.tileSize : ℚ) * res)⌋ = row + 1
        rw [← hy]
        have : tm.originy + (row : ℚ) * ((tm.tileSize : ℚ) * res) +
            (tm.tileSize : ℚ) * res - tm.originy =
            ((row : ℚ) + 1) * ((tm.tileSize : ℚ) * res) := by ring
        rw [this, mul_div_cancel_right₀ _ hg]
        rw [show ((row : ℚ) + 1) = ((row + 1 : ℤ) : ℚ) by push_cast; ring]
        rw [Int.floor_intCast]

/-- C1 (witness): the amended round trip evaluated on concrete NW and SW
matrices at zoom 0. -/
theorem getTileCoords_getTileNumber_roundtrip_witness :
    tmNW.getTileNumber 512 744 0 = some (2, 1) ∧
    tmSW.getTileNumber 512 512 0 = some (2, 2) := by
  constructor
  · exact getTileCoords_getTileNumber_roundtrip tmNW 2 1 0 1
      (by norm_num [tmNW, TileMatrix.getRes]) (by norm_num) (by norm_num [tmNW])
      512 744
      (by norm_num [tmNW, TileMatrix.getTileCoords, TileMatrix.getRes,
        TileMatrix.originx, TileMatrix.originy])
  · exact getTileCoords_getTileNumber_roundtrip tmSW 2 1 0 1
      (by norm_num [tmSW, TileMatrix.getRes]) (by norm_num) (by norm_num [tmSW])
      512 512
      (by norm_num [tmSW, TileMatrix.getTileCoords, TileMatrix.getRes,
        TileMatrix.originx, TileMatrix.originy])

/-! ## C2: getRes clamping with an explicit resolution list -/

/-- C2 (code bug): with an explicit resolution list, `getRes` returns
`resolutions[zoom]` for a valid index, but for `zoom >= len(resolutions)` the
source clamps `zoom` to `len(resolutions)` itself and then evaluates
`resolutions[len(resolutions)]`, which raises `IndexError` (modelled as
`none`) instead of returning the last entry as the spec claims. -/
theorem getRes_clamp_bug (tm : TileMatrix) (resolutions : List ℚ) (zoom : ℕ)
    (hcfg : tm.rescfg = .explicitList resolutions) :
    (zoom < resolutions.length → tm.getRes zoom = resolutions.get? zoom) ∧
    (resolutions.length ≤ zoom → tm.getRes zoom = none) := by
  constructor
  · intro h
    unfold TileMatrix.getRes
    rw [hcfg]
    simp only [if_neg (by omega : ¬ zoom > resolutions.length)]
  · intro h
    unfold TileMatrix.getRes
    rw [hcfg]
    by_cases hgt : zoom > resolutions.length
    · simp only [if_pos hgt]
      exact List.get?_eq_none.mpr (le_refl _)
    · simp only [if_neg hgt]
      exact List.get?_eq_none.mpr h

/-- A tile matrix with a one-entry explicit resolution list. -/
def tmExplicit : TileMatrix :=
  { CRS := 3857, tileSize := 256, originLoc := .NW,
    xmin := 0, ymin := 0, xmax := 1000, ymax := 1000,
    rescfg := .explicitList [1/2], nbLevels := 1 }

/-- C2 (witness): on the concrete one-level matrix, `getRes 0` returns the
entry and `getRes 1` raises (the clamp is to index 1, which is out of range). -/
theorem getRes_clamp_bug_witness :
    tmExplicit.getRes 0 = some (1/2) ∧ tmExplicit.getRes 1 = none := by
  constructor
  · exact ((getRes_clamp_bug tmExplicit [1/2] 0 rfl).1 (by norm_num)).trans rfl
  · exact (getRes_clamp_bug tmExplicit [1/2] 1 rfl).2 (by norm_num)

/-! ## GeoPackage tile cache (mapviewer.py lines 59-263)

The sqlite container is modelled as an explicit state: the file may be
absent, exist but not be a database, or be a database with five table slots.
Each slot is `absent` (the table does not exist, a query raises), or
`present shapeOk rows` where `shapeOk` records whether the columns the
source queries exist.  `Except String` models sqlite exceptions. -/

/-- PRAGMA application_id written and expected by the source: GP10 marker. -/
def gpkgApplicationId : ℤ := 1196437808

/-- GeoPackage.MAX_DAYS (line 61). -/
def MAX_DAYS : ℤ := 90

/-- One row of `gpkg_contents` (schema lines 118-133). -/
structure ContentsRow where
  table_name : String
  data_type : String
  identifier : String
  description : String
  min_x : ℚ
  min_y : ℚ
  max_x : ℚ
  max_y : ℚ
  srs_id : ℤ
deriving DecidableEq

/-- One row of `gpkg_spatial_ref_sys` (schema lines 135-143); the
description column is nullable and never supplied by the source. -/
structure SrsRow where
  srs_name : String
  srs_id : ℤ
  organization : String
  organization_coordsys_id : ℤ
  definition : String
  descriptionCol : Option String
deriving DecidableEq

/-- One row of `gpkg_tile_matrix_set` (schema lines 145-157). -/
structure TmsRow where
  table_name : String
  srs_id : ℤ
  min_x : ℚ
  min_y : ℚ
  max_x : ℚ
  max_y : ℚ
deriving DecidableEq

/-- One row of `gpkg_tile_matrix` (schema lines 159-172). -/
structure TmRow where
  table_name : String
  zoom_level : ℕ
  matrix_width : ℤ
  matrix_height : ℤ
  tile_width : ℕ
  tile_height : ℕ
  pixel_x_size : ℚ
  pixel_y_size : ℚ
deriving DecidableEq

/-- One row of `gpkg_tiles` (schema lines 174-183), minus the autoincrement
id.  `last_modified` is the insert timestamp, measured in days as a rational
so that the whole-day difference taken by `getTile` is an `Int.floor`. -/
structure TileRow where
  zoom_level : ℤ
  tile_column : ℤ
  tile_row : ℤ
  tile_data : Bytes
  last_modified : ℚ
deriving DecidableEq

/-- State of one sqlite table: missing, or present with a shape flag
(whether the columns the source selects exist) and its rows. -/
inductive Table (ρ : Type) where
  | absent : Table ρ
  | present (shapeOk : Bool) (rows : List ρ) : Table ρ
deriving DecidableEq

/-- Whether a `SELECT cols FROM t LIMIT 1` succeeds on the table. -/
def Table.selectOk {ρ : Type} : Table ρ → Bool
  | .absent => false
  | .present shapeOk _ => shapeOk

/-- The database part of a GeoPackage file. -/
structure GpkgDB where
  appId : ℤ
  gpkg_contents : Table ContentsRow
  gpkg_spatial_ref_sys : Table SrsRow
  gpkg_tile_matrix_set : Table TmsRow
  gpkg_tile_matrix : Table TmRow
  gpkg_tiles : Table TileRow
deriving DecidableEq

/-- State of the file at `dbPath`. -/
inductive GpkgFile where
  | absent : GpkgFile
  | notADatabase : GpkgFile
  | db (d : GpkgDB) : GpkgFile
deriving DecidableEq

/-- `GeoPackage.isGPKG` (lines 84-107): false if the file does not exist;
on an unreadable file the `PRAGMA application_id` itself raises; otherwise
the application id must match and the five schema probes must succeed. -/
def isGPKG : GpkgFile → Except String Bool
  | .absent => .ok false
  | .notADatabase => .error "file is not a database"
  | .db d => .ok (decide (d.appId = gpkgApplicationId)
      && d.gpkg_contents.selectOk
      && d.gpkg_spatial_ref_sys.selectOk
      && d.gpkg_tile_matrix_set.selectOk
      && d.gpkg_tile_matrix.selectOk
      && d.gpkg_tiles.selectOk)

/-- A `CREATE TABLE` without IF NOT EXISTS: raises if the table exists. -/
def createTable {ρ : Type} (t : Table ρ) (tableName : String) :
    Except String (Table ρ) :=
  match t with
  | .absent => .ok (.present true [])
  | .present _ _ => .error ("table " ++ tableName ++ " already exists")

/-- Body of `GeoPackage.create` (lines 110-183) once connected: set the
application id, then create the five tables in source order. -/
def createOnDb (d : GpkgDB) : Except String GpkgFile := do
  let c ← createTable d.gpkg_contents "gpkg_contents"
  let s ← createTable d.gpkg_spatial_ref_sys "gpkg_spatial_ref_sys"
  let ms ← createTable d.gpkg_tile_matrix_set "gpkg_tile_matrix_set"
  let mx ← createTable d.gpkg_tile_matrix "gpkg_tile_matrix"
  let ti ← createTable d.gpkg_tiles "gpkg_tiles"
  return .db ⟨gpkgApplicationId, c, s, ms, mx, ti⟩

/-- `GeoPackage.create` (lines 110-183): `sqlite3.connect` creates a fresh
empty database when the file is absent; the PRAGMA raises on a file that is
not a database. -/
def create : GpkgFile → Except String GpkgFile
  | .absent => createOnDb
      { appId := 0, gpkg_contents := .absent, gpkg_spatial_ref_sys := .absent,
        gpkg_tile_matrix_set := .absent, gpkg_tile_matrix := .absent,
        gpkg_tiles := .absent }
  | .notADatabase => .error "file is not a database"
  | .db d => createOnDb d

/-- `GeoPackage.insertMetadata` (lines 187-197): a plain INSERT into
`gpkg_contents`, whose primary key is `table_name` and whose `identifier`
column is UNIQUE. -/
def insertMetadata (f : GpkgFile) (name : String) (xmin ymin xmax ymax : ℚ)
    (crs : ℤ) : Except String GpkgFile :=
  match f with
  | .db d =>
    match d.gpkg_contents with
    | .absent => .error "no such table: gpkg_contents"
    | .present shapeOk rows =>
        if rows.any (fun r => r.table_name == "gpkg_tiles"
            || r.identifier == name) then
          .error "UNIQUE constraint failed: gpkg_contents"
        else
          .ok (.db { d with gpkg_contents := .present shapeOk (rows ++
            [⟨"gpkg_tiles", "tiles", name, "Created with BlenderGIS",
              xmin, ymin, xmax, ymax, crs⟩]) })
  | _ => .error "unable to open database file"

/-- `GeoPackage.insertCRS` (lines 200-211): a plain INSERT into
`gpkg_spatial_ref_sys`, whose primary key is `srs_id`. -/
def insertCRS (f : GpkgFile) (code : ℤ) (name : String) (wkt : String) :
    Except String GpkgFile :=
  match f with
  | .db d =>
    match d.gpkg_spatial_ref_sys with
    | .absent => .error "no such table: gpkg_spatial_ref_sys"
    | .present shapeOk rows =>
        if rows.any (fun r => r.srs_id == code) then
          .error "UNIQUE constraint failed: gpkg_spatial_ref_sys.srs_id"
        else
          .ok (.db { d with gpkg_spatial_ref_sys := .present shapeOk (rows ++
            [⟨name, code, "EPSG", code, wkt, none⟩]) })
  | _ => .error "unable to open database file"

/-- The `gpkg_tile_matrix` record of one zoom level (lines 226-237):
grid width and height are `ceil(extent / (tileSize * res))`. -/
def tmRowOfLevel (xmin ymin xmax ymax : ℚ) (tileSize : ℕ)
    (lr : ℕ × ℚ) : TmRow :=
  ⟨"gpkg_tiles", lr.1,
    ⌈(xmax - xmin) / ((tileSize : ℚ) * lr.2)⌉,
    ⌈(ymax - ymin) / ((tileSize : ℚ) * lr.2)⌉,
    tileSize, tileSize, lr.2, lr.2⟩

/-- One `INSERT OR REPLACE INTO gpkg_tile_matrix` step: the composite key is
`(table_name, zoom_level)`, so any existing row with that key is replaced. -/
def upsertTmRow (acc : List TmRow) (row : TmRow) : List TmRow :=
  acc.filter (fun r =>
    !(r.table_name == row.table_name && r.zoom_level == row.zoom_level))
    ++ [row]

/-- `GeoPackage.insertTileMatrixSet` (lines 214-241): INSERT OR REPLACE the
single `gpkg_tile_matrix_set` row (keyed by `table_name`), then one
INSERT OR REPLACE per `enumerate(self.resolutions)` level. -/
def insertTileMatrixSet (f : GpkgFile) (crs : ℤ) (xmin ymin xmax ymax : ℚ)
    (tileSize : ℕ) (resolutions : List ℚ) : Except String GpkgFile :=
  match f with
  | .db d =>
    match d.gpkg_tile_matrix_set, d.gpkg_tile_matrix with
    | .present sOk rowsS, .present mOk rowsM =>
        let rowsS2 := rowsS.filter (fun r => !(r.table_name == "gpkg_tiles"))
          ++ [⟨"gpkg_tiles", crs, xmin, ymin, xmax, ymax⟩]
        let rowsM2 := resolutions.enum.foldl (fun acc lr =>
          upsertTmRow acc (tmRowOfLevel xmin ymin xmax ymax tileSize lr)) rowsM
        .ok (.db { d with gpkg_tile_matrix_set := .present sOk rowsS2, gpkg_tile_matrix := .present mOk rowsM2 })
    | _, _ => .error "no such table"
  | _ => .error "unable to open database file"

/-- `GeoPackage.__init__` (lines 63-81): read the tile matrix properties,
then if `isGPKG` fails re-initialize schema and metadata. -/
def geoPackageInit (name : String) (tm : TileMatrix) (f : GpkgFile) :
    Except String GpkgFile := do
  let valid ← isGPKG f
  if valid then
    return f
  else
    let f1 ← create f
    let f2 ← insertMetadata f1 name tm.xmin tm.ymin tm.xmax tm.ymax tm.CRS
    let f3 ← insertCRS f2 tm.CRS (toString tm.CRS) ""
    let f4 ← insertTileMatrixSet f3 tm.CRS tm.xmin tm.ymin tm.xmax tm.ymax
      tm.tileSize tm.getResList
    return f4

/-- Key equality used by the tile queries (`zoom_level=? AND tile_column=?
AND tile_row=?` and the UNIQUE constraint). -/
def sameTileKey (t : TileRow) (z x y : ℤ) : Bool :=
  t.zoom_level == z && t.tile_column == x && t.tile_row == y

/-- `GeoPackage.putTile` (lines 244-250): INSERT OR REPLACE keyed by the
UNIQUE `(zoom_level, tile_column, tile_row)` constraint, stamping the
current time. -/
def putTile (tiles : List TileRow) (x y z : ℤ) (data : Bytes) (now : ℚ) :
    List TileRow :=
  tiles.filter (fun t => !(sameTileKey t z x y)) ++ [⟨z, x, y, data, now⟩]

/-- `GeoPackage.getTile` (lines 252-263): SELECT the row for the key; a miss,
or a row whose whole-day age exceeds `MAX_DAYS`, returns `None`.  The second
component is the table after the call: the method only reads, so it is
returned unchanged (no DELETE is issued for stale rows). -/
def gpkgGetTile (tiles : List TileRow) (now : ℚ) (x y z : ℤ) :
    Option Bytes × List TileRow :=
  match tiles.find? (fun t => sameTileKey t z x y) with
  | none => (none, tiles)
  | some t =>
      if MAX_DAYS < ⌊now - t.last_modified⌋ then (none, tiles)
      else (some t.tile_data, tiles)

/-! ## C3: re-initialization of an invalid container -/

/-- The `gpkg_tile_matrix` rows written by `insertTileMatrixSet`: one per
level of the resolution list. -/
def tileMatrixRecords (xmin ymin xmax ymax : ℚ) (tileSize : ℕ)
    (resolutions : List ℚ) : List TmRow :=
  resolutions.enum.map (tmRowOfLevel xmin ymin xmax ymax tileSize)

theorem foldl_upsertTmRow_eq (xmin ymin xmax ymax : ℚ) (tileSize : ℕ)
    (l : List (ℕ × ℚ)) (acc : List TmRow)
    (hacc : ∀ lr ∈ l, ∀ r ∈ acc,
      ¬(r.table_name = "gpkg_tiles" ∧ r.zoom_level = lr.1))
    (hnodup : (l.map Prod.fst).Nodup) :
    l.foldl (fun acc lr =>
        upsertTmRow acc (tmRowOfLevel xmin ymin xmax ymax tileSize lr)) acc
      = acc ++ l.map (tmRowOfLevel xmin ymin xmax ymax tileSize) := by
  induction l generalizing acc with
  | nil => simp
  | cons a l ih =>
    rw [List.foldl_cons]
    have hstep : upsertTmRow acc (tmRowOfLevel xmin ymin xmax ymax tileSize a)
        = acc ++ [tmRowOfLevel xmin ymin xmax ymax tileSize a] := by
      unfold upsertTmRow
      congr 1
      apply List.filter_eq_self.mpr
      intro r hr
      rcases not_and_or.mp (hacc a (List.mem_cons_self a l) r hr) with h2 | h2
      all_goals simp [tmRowOfLevel, h2]
    have hacc2 : ∀ lr ∈ l,
        ∀ r ∈ acc ++ [tmRowOfLevel xmin ymin xmax ymax tileSize a],
        ¬(r.table_name = "gpkg_tiles" ∧ r.zoom_level = lr.1) := by
      intro lr hlr r hr
      rcases List.mem_append.mp hr with hr | hr
      · exact hacc lr (List.mem_cons_of_mem a hlr) r hr
      · simp only [List.mem_singleton] at hr
        subst hr
        simp only [tmRowOfLevel]
        rintro ⟨-, hz⟩
        have hmem : a.1 ∈ l.map Prod.fst := by
          rw [hz]
          exact List.mem_map_of_mem Prod.fst hlr
        exact (List.nodup_cons.mp (by simpa using hnodup)).1 hmem
    have ih2 := ih (acc ++ [tmRowOfLevel xmin ymin xmax ymax tileSize a])
      hacc2 (List.nodup_cons.mp (by simpa using hnodup)).2
    rw [hstep, ih2, List.append_assoc, List.map_cons, List.singleton_append]

/-- C3 (counterexample): an existing file that fails the validity check only
through its application id, but which already contains a `gpkg_contents`
table, makes the supposed re-initialization raise a table-already-exists
error from `CREATE TABLE gpkg_contents` instead of completing silently. -/
theorem C3_reinit_cex :
    geoPackageInit "SRC_LAY" tmExplicit
      (.db ⟨0, .present true [], .absent, .absent, .absent, .absent⟩) =
    .error "table gpkg_contents already exists" := rfl

/-- C3 (amended): constructing a GeoPackage over an existing database that
fails the validity check re-initializes the container without error
provided none of the five schema tables is already there: the result is the
full schema with the application id set, the one contents metadata row, the
spatial-reference-system record, the tile-matrix-set record, one tile-matrix
record per resolution level, and an empty tile table.  (If any of the five
tables already exists, the plain CREATE TABLE statements raise instead, as
the counterexample shows.) -/
theorem geoPackageInit_reinit (name : String) (tm : TileMatrix) (d : GpkgDB)
    (hc : d.gpkg_contents = .absent) (hs : d.gpkg_spatial_ref_sys = .absent)
    (hms : d.gpkg_tile_matrix_set = .absent)
    (hmx : d.gpkg_tile_matrix = .absent) (hti : d.gpkg_tiles = .absent) :
    geoPackageInit name tm (.db d) = .ok (.db
      ⟨gpkgApplicationId,
        .present true [⟨"gpkg_tiles", "tiles", name, "Created with BlenderGIS",
          tm.xmin, tm.ymin, tm.xmax, tm.ymax, tm.CRS⟩],
        .present true [⟨toString tm.CRS, tm.CRS, "EPSG", tm.CRS, "", none⟩],
        .present true [⟨"gpkg_tiles", tm.CRS, tm.xmin, tm.ymin, tm.xmax,
          tm.ymax⟩],
        .present true (tileMatrixRecords tm.xmin tm.ymin tm.xmax tm.ymax
          tm.tileSize tm.getResList),
        .present true []⟩) := by
  obtain ⟨appId, c, s, ms, mx, ti⟩ := d
  simp only at hc hs hms hmx hti
  subst hc hs hms hmx hti
  have hfold := foldl_upsertTmRow_eq tm.xmin tm.ymin tm.xmax tm.ymax
    tm.tileSize tm.getResList.enum [] (by simp)
    (by rw [List.enum_map_fst]; exact List.nodup_range _)
  simp only [List.append_nil, List.nil_append] at hfold
  simp [geoPackageInit, isGPKG, Table.selectOk, Bool.and_false, Bool.false_and,
    create, createOnDb, createTable, insertMetadata, insertCRS,
    insertTileMatrixSet, hfold, tileMatrixRecords, Except.bind, bind, pure,
    Except.pure]

/-- A clean invalid database: application id 0 and no tables at all. -/
def emptyDb : GpkgDB := ⟨0, .absent, .absent, .absent, .absent, .absent⟩

/-- C3 (witness): re-initializing over `emptyDb` with the one-level explicit
matrix succeeds and produces the fully evaluated schema: one contents row,
one srs row, one tile-matrix-set row, the single level-0 tile-matrix record
(grid 8 by 8 at resolution 1/2) and an empty tile table. -/
theorem geoPackageInit_reinit_witness :
    geoPackageInit "w" tmExplicit (.db emptyDb) = .ok (.db
      ⟨gpkgApplicationId,
        .present true [⟨"gpkg_tiles", "tiles", "w", "Created with BlenderGIS",
          0, 0, 1000, 1000, 3857⟩],
        .present true [⟨"3857", 3857, "EPSG", 3857, "", none⟩],
        .present true [⟨"gpkg_tiles", 3857, 0, 0, 1000, 1000⟩],
        .present true [⟨"gpkg_tiles", 0, 8, 8, 256, 256, 1/2, 1/2⟩],
        .present true []⟩) := by
  refine (geoPackageInit_reinit "w" tmExplicit emptyDb rfl rfl rfl rfl
    rfl).trans ?_
  norm_num [tmExplicit, TileMatrix.getResList, tileMatrixRecords,
    List.enum, List.enumFrom, tmRowOfLevel]
  refine ⟨rfl, ?_⟩
  rw [Int.ceil_eq_iff]
  norm_num

/-! ## C4: cache freshness boundary -/

/-- C4: when a row exists for the key, `getTile` returns its bytes when the
whole-day age is at most `MAX_DAYS = 90` (hence an 89-day-old tile is a hit),
returns `none` when the age exceeds 90 days (hence a 91-day-old tile is a
miss), and in both cases leaves the tile table unchanged, the row included. -/
theorem getTile_freshness (tiles : List TileRow) (now : ℚ) (x y z : ℤ)
    (t : TileRow)
    (hfind : tiles.find? (fun r => sameTileKey r z x y) = some t) :
    (⌊now - t.last_modified⌋ ≤ 90 →
      gpkgGetTile tiles now x y z = (some t.tile_data, tiles)) ∧
    (90 < ⌊now - t.last_modified⌋ →
      gpkgGetTile tiles now x y z = (none, tiles)) ∧
    t ∈ tiles := by
  refine ⟨?_, ?_, List.mem_of_find?_eq_some hfind⟩
  · intro h
    simp only [gpkgGetTile, hfind]
    rw [if_neg (by simp only [MAX_DAYS]; omega)]
  · intro h
    simp only [gpkgGetTile, hfind]
    rw [if_pos (by simp only [MAX_DAYS]; omega)]

/-- A concrete cached tile row stamped at time 0 (in days). -/
def rowC4 : TileRow := ⟨5, 1, 2, [7], 0⟩

/-- C4 (witness): on a one-row table, reading 89 days after the stamp is a
hit and 91 days after is a miss, with the row still in the table. -/
theorem getTile_freshness_witness :
    gpkgGetTile [rowC4] 89 1 2 5 = (some [7], [rowC4]) ∧
    gpkgGetTile [rowC4] 91 1 2 5 = (none, [rowC4]) := by
  constructor
  · exact (getTile_freshness [rowC4] 89 1 2 5 rowC4 rfl).1
      (by norm_num [rowC4])
  · exact (getTile_freshness [rowC4] 91 1 2 5 rowC4 rfl).2.1
      (by norm_num [rowC4])

/-! ## C7: the tile table is an upsert keyed by (zoom, column, row) -/

/-- The composite UNIQUE key of a `gpkg_tiles` row. -/
def tileKey (t : TileRow) : ℤ × ℤ × ℤ :=
  (t.zoom_level, t.tile_column, t.tile_row)

/-- The tile-table invariant: at most one row per (zoom, column, row). -/
def uniqueKeys (tiles : List TileRow) : Prop :=
  (tiles.map tileKey).Nodup

theorem sameTileKey_true_iff (t : TileRow) (z x y : ℤ) :
    sameTileKey t z x y = true ↔ tileKey t = (z, x, y) := by
  simp [sameTileKey, tileKey, Prod.ext_iff, and_assoc]

/-- C7: `putTile` preserves the at-most-one-row-per-key invariant, a second
`putTile` on the same key collapses to the last one (the whole table equals
the table after a single put of the later data), and after the two calls the
rows matching the key are exactly one row carrying the later bytes and
timestamp. -/
theorem putTile_upsert (tiles : List TileRow) (x y z : ℤ) (d1 d2 : Bytes)
    (t1 t2 : ℚ) (h : uniqueKeys tiles) :
    uniqueKeys (putTile tiles x y z d1 t1) ∧
    putTile (putTile tiles x y z d1 t1) x y z d2 t2 =
      putTile tiles x y z d2 t2 ∧
    (putTile (putTile tiles x y z d1 t1) x y z d2 t2).filter
      (fun t => sameTileKey t z x y) = [⟨z, x, y, d2, t2⟩] := by
  refine ⟨?_, ?_, ?_⟩
  · unfold uniqueKeys putTile
    rw [List.map_append]
    rw [List.nodup_append]
    refine ⟨(List.Sublist.map tileKey (List.filter_sublist tiles)).nodup h,
      List.nodup_singleton _, ?_⟩
    intro k hk hk2
    simp only [List.map_cons, List.map_nil, List.mem_singleton] at hk2
    subst hk2
    rcases List.mem_map.mp hk with ⟨t, ht, hkey⟩
    have hp := List.of_mem_filter ht
    rw [Bool.not_eq_true'] at hp
    have htrue : sameTileKey t z x y = true :=
      (sameTileKey_true_iff t z x y).mpr hkey
    rw [hp] at htrue
    exact Bool.false_ne_true htrue
  · unfold putTile
    rw [List.filter_append, List.filter_filter]
    simp [sameTileKey]
  · simp [putTile, List.filter_append, List.filter_filter, sameTileKey]

/-- C7 (witness): two puts of different bytes on the key (3,1,2) of a table
holding one other row. -/
theorem putTile_upsert_witness :
    putTile (putTile [rowC4] 1 2 3 [9] 10) 1 2 3 [8] 20 =
      [rowC4, ⟨3, 1, 2, [8], 20⟩] ∧
    (putTile (putTile [rowC4] 1 2 3 [9] 10) 1 2 3 [8] 20).filter
      (fun t => sameTileKey t 3 1 2) = [⟨3, 1, 2, [8], 20⟩] := by
  have h := putTile_upsert [rowC4] 1 2 3 [9] [8] 10 20
    (by simp [uniqueKeys, rowC4, tileKey])
  refine ⟨h.2.1.trans ?_, h.2.2⟩
  simp [putTile, rowC4, sameTileKey]

/-! ## C6: quad-key addressing (MapService.getQuadKey, lines 560-571) -/

/-- The digit appended for mask bit `i` (source loop variable `i+1`, mask
`1 << i`): start from 0, add 1 if the column has that bit, 2 if the row has
that bit. -/
def quadKeyDigit (x y : ℕ) (i : ℕ) : ℕ :=
  (if x &&& (1 <<< i) ≠ 0 then 1 else 0) +
    (if y &&& (1 <<< i) ≠ 0 then 2 else 0)

/-- `MapService.getQuadKey`: `for i in range(z, 0, -1)` appends
`str(digit)` for mask bit `i-1`; the recursion peels the first loop
iteration (mask bit `z-1`) and recurses on the remaining `z-1` iterations. -/
def getQuadKey (x y : ℕ) : ℕ → String
  | 0 => ""
  | i + 1 => toString (quadKeyDigit x y i) ++ getQuadKey x y i

theorem quadKeyDigit_eq (x y i : ℕ) :
    quadKeyDigit x y i = (if Nat.testBit x i then 1 else 0) +
      2 * (if Nat.testBit y i then 1 else 0) := by
  unfold quadKeyDigit
  rw [Nat.one_shiftLeft, Nat.and_two_pow, Nat.and_two_pow]
  cases hx : x.testBit i <;> cases hy : y.testBit i <;>
    simp [hx, hy, Nat.pow_eq_zero]

theorem quadKeyDigit_le (x y i : ℕ) : quadKeyDigit x y i ≤ 3 := by
  rw [quadKeyDigit_eq]
  cases x.testBit i <;> cases y.testBit i <;> simp

theorem toString_digit (d : ℕ) (hd : d ≤ 3) :
    toString d = String.mk [Nat.digitChar d] := by
  interval_cases d <;> rfl

theorem getQuadKey_eq (x y : ℕ) : ∀ z, getQuadKey x y z =
    String.mk (((List.range z).reverse).map
      (fun i => Nat.digitChar (quadKeyDigit x y i)))
  | 0 => rfl
  | z + 1 => by
    show toString (quadKeyDigit x y z) ++ getQuadKey x y z = _
    rw [getQuadKey_eq x y z, toString_digit _ (quadKeyDigit_le x y z),
      List.range_succ, List.reverse_append]
    rfl

/-- C6: `getQuadKey col row zoom` is a string of exactly `zoom` characters;
its i-th character (0-based from the left) is the decimal digit
`1*(bit zoom-1-i of col) + 2*(bit zoom-1-i of row)`; in particular
`getQuadKey 3 5 3 = "213"` and the zoom-0 quad key is empty. -/
theorem getQuadKey_spec :
    (∀ col row zoom : ℕ, (getQuadKey col row zoom).length = zoom ∧
      ∀ i : ℕ, i < zoom → (getQuadKey col row zoom).data[i]? =
        some (Nat.digitChar
          ((if Nat.testBit col (zoom - 1 - i) then 1 else 0) +
            2 * (if Nat.testBit row (zoom - 1 - i) then 1 else 0)))) ∧
    getQuadKey 3 5 3 = "213" ∧ (∀ col row : ℕ, getQuadKey col row 0 = "") := by
  refine ⟨fun col row zoom => ⟨?_, fun i hi => ?_⟩, by decide, fun _ _ => rfl⟩
  · rw [getQuadKey_eq]
    simp [String.length]
  · rw [getQuadKey_eq]
    show (((List.range zoom).reverse).map
      (fun i => Nat.digitChar (quadKeyDigit col row i)))[i]? = _
    rw [List.getElem?_map]
    rw [List.getElem?_reverse (by simpa using hi)]
    simp only [List.length_range]
    rw [List.getElem?_range (by omega)]
    simp [quadKeyDigit_eq]

/-- C6 (witness): the general part of the quad-key specification evaluated
at `col = 3`, `row = 5`, `zoom = 3`, `i = 0`. -/
theorem getQuadKey_spec_witness :
    (getQuadKey 3 5 3).length = 3 ∧
    (getQuadKey 3 5 3).data[0]? =
      some (Nat.digitChar ((if Nat.testBit 3 2 then 1 else 0) +
        2 * (if Nat.testBit 5 2 then 1 else 0))) :=
  ⟨(getQuadKey_spec.1 3 5 3).1, (getQuadKey_spec.1 3 5 3).2 0 (by norm_num)⟩

/-! ## C5: WMS bounding-box axis order (MapService.buildUrl, lines 535-557) -/

/-- The bbox component sequence substituted for the BBOX token in the WMS
branch of `buildUrl` (lines 548-555): `(xmin, ymax)` is the tile top-left
corner from `getTileCoords`, `xmax`/`ymin` add/subtract one geographic tile
size (`tileSize * getRes zoom`), and the components are listed
latitude-first exactly when the template VERSION is `1.3.0` and the source
matrix CRS is 4326.  `none` propagates an `IndexError` from `getRes`. -/
def wmsBBox (tm1 : TileMatrix) (version : String) (col row : ℤ) (zoom : ℕ) :
    Option (List ℚ) :=
  match tm1.getTileCoords col row zoom, tm1.getRes zoom with
  | some xy, some res =>
      let xmax := xy.1 + (tm1.tileSize : ℚ) * res
      let ymin := xy.2 - (tm1.tileSize : ℚ) * res
      if version = "1.3.0" ∧ tm1.CRS = 4326 then some [ymin, xy.1, xy.2, xmax]
      else some [xy.1, ymin, xmax, xy.2]
  | _, _ => none

/-- C5: the WMS bbox components are `(ymin, xmin, ymax, xmax)` exactly when
VERSION is 1.3.0 and the CRS is 4326 and `(xmin, ymin, xmax, ymax)`
otherwise, with `(xmin, ymax)` the tile top-left corner,
`xmax = xmin + tileSize * res` and `ymin = ymax - tileSize * res`; the
latitude-first order characterizes that condition whenever the two orders
are distinguishable (`xmin` differs from `ymin`). -/
theorem wmsBBox_axis_order (tm1 : TileMatrix) (version : String)
    (col row : ℤ) (zoom : ℕ) (x0 y0 res : ℚ)
    (hc : tm1.getTileCoords col row zoom = some (x0, y0))
    (hr : tm1.getRes zoom = some res) :
    wmsBBox tm1 version col row zoom =
      some (if version = "1.3.0" ∧ tm1.CRS = 4326
        then [y0 - (tm1.tileSize : ℚ) * res, x0, y0,
          x0 + (tm1.tileSize : ℚ) * res]
        else [x0, y0 - (tm1.tileSize : ℚ) * res,
          x0 + (tm1.tileSize : ℚ) * res, y0]) ∧
    (x0 ≠ y0 - (tm1.tileSize : ℚ) * res →
      (wmsBBox tm1 version col row zoom =
          some [y0 - (tm1.tileSize : ℚ) * res, x0, y0,
            x0 + (tm1.tileSize : ℚ) * res]
        ↔ (version = "1.3.0" ∧ tm1.CRS = 4326))) := by
  have hbase : wmsBBox tm1 version col row zoom =
      if version = "1.3.0" ∧ tm1.CRS = 4326
      then some [y0 - (tm1.tileSize : ℚ) * res, x0, y0,
        x0 + (tm1.tileSize : ℚ) * res]
      else some [x0, y0 - (tm1.tileSize : ℚ) * res,
        x0 + (tm1.tileSize : ℚ) * res, y0] := by
    simp only [wmsBBox, hc, hr]
  constructor
  · rw [hbase, apply_ite some]
  · intro hne
    rw [hbase]
    by_cases hC : version = "1.3.0" ∧ tm1.CRS = 4326
    · rw [if_pos hC]
      exact iff_of_true rfl hC
    · rw [if_neg hC]
      refine iff_of_false ?_ hC
      intro h
      simp only [Option.some.injEq, List.cons.injEq] at h
      exact hne h.1

/-- A 4326 (geographic CRS) tile matrix for the witness. -/
def tmGeo : TileMatrix :=
  { CRS := 4326, tileSize := 256, originLoc := .NW,
    xmin := 0, ymin := 0, xmax := 1000, ymax := 1000,
    rescfg := .computed 1 2, nbLevels := 24 }

/-- C5 (witness): concrete bbox orders for (VERSION 1.3.0, CRS 4326) and for
(VERSION 1.1.1, CRS 3857). -/
theorem wmsBBox_axis_order_witness :
    wmsBBox tmGeo "1.3.0" 0 0 0 = some [744, 0, 1000, 256] ∧
    wmsBBox tmNW "1.1.1" 0 0 0 = some [0, 744, 256, 1000] := by
  constructor
  · refine ((wmsBBox_axis_order tmGeo "1.3.0" 0 0 0 0 1000 1
      (by norm_num [tmGeo, TileMatrix.getTileCoords, TileMatrix.getRes,
        TileMatrix.originx, TileMatrix.originy])
      (by norm_num [tmGeo, TileMatrix.getRes])).1).trans ?_
    norm_num [tmGeo]
  · refine ((wmsBBox_axis_order tmNW "1.1.1" 0 0 0 0 1000 1
      (by norm_num [tmNW, TileMatrix.getTileCoords, TileMatrix.getRes,
        TileMatrix.originx, TileMatrix.originy])
      (by norm_num [tmNW, TileMatrix.getRes])).1).trans ?_
    norm_num [tmNW]

/-! ## MapService.getTile (lines 574-624) and the worker loop
MapImage.load (lines 902-928)

The embedding threads the cache table explicitly and records, per call, the
keys of the cache tile reads, the network requests issued, and the cache
writes; `none` models an exception escaping `getTile` (only possible from
the `getTileCoords` call on line 583, which sits outside any try block).
The network and the two external byte classifiers (`imghdr.what` content
sniffing and PIL image decoding) are oracle parameters. -/

/-- Outcome of one `MapService.getTile` call. -/
structure GetTileResult where
  data : Option Bytes
  cache : List TileRow
  cacheReads : List (ℤ × ℤ × ℤ)
  netRequests : List (ℤ × ℤ × ℕ)
  cacheWrites : List (ℤ × ℤ × ℤ)
deriving DecidableEq

/-- Lines 592-597: a cached blob is kept only if `imghdr.what` recognizes an
image format; otherwise it is treated as corrupted and dropped. -/
def validateCached (sniff : Bytes → Option String) (data0 : Option Bytes) :
    Option Bytes :=
  match data0 with
  | none => none
  | some d =>
      match sniff d with
      | none => none
      | some _ => some d

/-- `MapService.getTile` (lines 574-624).  The bounds guard returns `None`
before any cache tile read or network request; a cache hit that sniffs as an
image is returned without touching the network; otherwise the tile is
downloaded (the oracle returning `none` models a request error or timeout,
caught by the bare except on line 611), sniffed, and only a recognized image
is written to the cache — with `putTile(col, row, self.zoom, data)`, i.e.
keyed by the instance attribute `self.zoom`, not the `zoom` argument. -/
def serviceGetTile (tm2 : TileMatrix) (selfZoom : ℕ)
    (net : ℤ → ℤ → ℕ → Option Bytes) (sniff : Bytes → Option String)
    (cache : List TileRow) (now : ℚ) (col row : ℤ) (zoom : ℕ) :
    Option GetTileResult :=
  match tm2.getTileCoords col row zoom with
  | none => none
  | some xy =>
      if row < 0 ∨ col < 0 then some ⟨none, cache, [], [], []⟩
      else if ¬(tm2.xmin ≤ xy.1 ∧ xy.1 < tm2.xmax) ∨
          ¬(tm2.ymin < xy.2 ∧ xy.2 ≤ tm2.ymax) then
        some ⟨none, cache, [], [], []⟩
      else
        match validateCached sniff (gpkgGetTile cache now col row (zoom : ℤ)).1 with
        | some d => some ⟨some d, cache, [(col, row, (zoom : ℤ))], [], []⟩
        | none =>
            match net col row zoom with
            | none => some ⟨none, cache, [(col, row, (zoom : ℤ))],
                [(col, row, zoom)], []⟩
            | some bytes =>
                match sniff bytes with
                | none => some ⟨none, cache, [(col, row, (zoom : ℤ))],
                    [(col, row, zoom)], []⟩
                | some _ => some ⟨some bytes,
                    putTile cache col row (selfZoom : ℤ) bytes now,
                    [(col, row, (zoom : ℤ))], [(col, row, zoom)],
                    [(col, row, (selfZoom : ℤ))]⟩

/-- The image pasted into the mosaic for one tile: either the decoded tile
or the blank `tileSize x tileSize` placeholder created on line 921. -/
inductive TileImg where
  | blank : TileImg
  | decoded (b : Bytes) : TileImg
deriving DecidableEq

/-- Mutable state touched by a `load` worker: the cache table, the mosaic
(as the sequence of paste positions and images) and the progress counter. -/
structure LoadState where
  cache : List TileRow
  mosaic : List ((ℤ × ℤ) × TileImg)
  cptTiles : ℕ
deriving DecidableEq

/-- Fixed per-cycle context of a `load` worker: the destination matrix, the
current zoom (`self.zoom`), the network and classifier oracles, and the
first tile indices `self.col1`, `self.row1`. -/
structure LoadCfg where
  tm2 : TileMatrix
  selfZoom : ℕ
  net : ℤ → ℤ → ℕ → Option Bytes
  sniff : Bytes → Option String
  decode : Bytes → Bool
  col1 : ℤ
  row1 : ℤ
  now : ℚ

/-- One iteration of the `load` loop body (lines 911-928): fetch the tile
with `getTile(layKey, col, row, self.zoom)`, decode with PIL inside a try
whose except produces a blank placeholder, and paste at
`((col - col1) * tileSize, |row - row1| * tileSize)`. -/
def loadStep (cfg : LoadCfg) (st : LoadState) (t : ℤ × ℤ) : Option LoadState :=
  match serviceGetTile cfg.tm2 cfg.selfZoom cfg.net cfg.sniff st.cache cfg.now
      t.1 t.2 cfg.selfZoom with
  | none => none
  | some r =>
      let img : TileImg :=
        match r.data with
        | none => .blank
        | some d => if cfg.decode d then .decoded d else .blank
      let posx : ℤ := (t.1 - cfg.col1) * (cfg.tm2.tileSize : ℤ)
      let posy : ℤ := |t.2 - cfg.row1| * (cfg.tm2.tileSize : ℤ)
      some ⟨r.cache, st.mosaic ++ [((posx, posy), img)], st.cptTiles + 1⟩

/-- `MapImage.load` (lines 902-928): per tile, first check the shared
cancellation flag and return early if cleared, else run the loop body and
continue with the remaining tiles.  `none` models an exception escaping the
worker. -/
def load (cfg : LoadCfg) (running : Bool) :
    List (ℤ × ℤ) → LoadState → Option LoadState
  | [], st => some st
  | t :: rest, st =>
      if running then
        match loadStep cfg st t with
        | none => none
        | some st1 => load cfg running rest st1
      else some st

/-- Helper: on an in-bounds cache miss whose download fails (request error
or timeout) or whose downloaded bytes are not recognized as an image,
`getTile` returns `None`, leaves the cache unchanged, and performs no cache
write. -/
theorem serviceGetTile_fetch_failed (tm2 : TileMatrix) (selfZoom : ℕ)
    (net : ℤ → ℤ → ℕ → Option Bytes) (sniff : Bytes → Option String)
    (cache : List TileRow) (now : ℚ) (col row : ℤ) (zoom : ℕ) (x y : ℚ)
    (hxy : tm2.getTileCoords col row zoom = some (x, y))
    (h1 : ¬(row < 0 ∨ col < 0))
    (hbb : (tm2.xmin ≤ x ∧ x < tm2.xmax) ∧ (tm2.ymin < y ∧ y ≤ tm2.ymax))
    (hmiss : validateCached sniff (gpkgGetTile cache now col row (zoom : ℤ)).1
      = none)
    (hfail : net col row zoom = none ∨
      ∃ b, net col row zoom = some b ∧ sniff b = none) :
    serviceGetTile tm2 selfZoom net sniff cache now col row zoom =
      some ⟨none, cache, [(col, row, (zoom : ℤ))], [(col, row, zoom)], []⟩ := by
  simp only [serviceGetTile, hxy]
  rw [if_neg h1, if_neg (by tauto)]
  rcases hfail with hn | ⟨b, hb, hs⟩
  · simp only [hmiss, hn]
  · simp only [hmiss, hb, hs]

/-- C8: in the worker loop, a tile whose network fetch fails (error or
timeout) or whose fetched bytes are not recognized as an image raises
nothing out of the worker (`loadStep` returns a state, not an exception),
inserts nothing into the cache (the cache is unchanged), pastes a blank
placeholder at `((col - col1) * tileSize, |row - row1| * tileSize)`, and the
loop continues over the remaining tiles. -/
theorem load_failed_tile_blank (cfg : LoadCfg) (col row : ℤ)
    (rest : List (ℤ × ℤ)) (st : LoadState) (x y : ℚ)
    (hxy : cfg.tm2.getTileCoords col row cfg.selfZoom = some (x, y))
    (h1 : ¬(row < 0 ∨ col < 0))
    (hbb : (cfg.tm2.xmin ≤ x ∧ x < cfg.tm2.xmax) ∧
      (cfg.tm2.ymin < y ∧ y ≤ cfg.tm2.ymax))
    (hmiss : validateCached cfg.sniff
      (gpkgGetTile st.cache cfg.now col row (cfg.selfZoom : ℤ)).1 = none)
    (hfail : cfg.net col row cfg.selfZoom = none ∨
      ∃ b, cfg.net col row cfg.selfZoom = some b ∧ cfg.sniff b = none) :
    loadStep cfg st (col, row) = some ⟨st.cache,
      st.mosaic ++ [(((col - cfg.col1) * (cfg.tm2.tileSize : ℤ),
        |row - cfg.row1| * (cfg.tm2.tileSize : ℤ)), TileImg.blank)],
      st.cptTiles + 1⟩ ∧
    load cfg true ((col, row) :: rest) st =
      load cfg true rest ⟨st.cache,
        st.mosaic ++ [(((col - cfg.col1) * (cfg.tm2.tileSize : ℤ),
          |row - cfg.row1| * (cfg.tm2.tileSize : ℤ)), TileImg.blank)],
        st.cptTiles + 1⟩ := by
  have hstep := serviceGetTile_fetch_failed cfg.tm2 cfg.selfZoom cfg.net
    cfg.sniff st.cache cfg.now col row cfg.selfZoom x y hxy h1 hbb hmiss hfail
  have hls : loadStep cfg st (col, row) = some ⟨st.cache,
      st.mosaic ++ [(((col - cfg.col1) * (cfg.tm2.tileSize : ℤ),
        |row - cfg.row1| * (cfg.tm2.tileSize : ℤ)), TileImg.blank)],
      st.cptTiles + 1⟩ := by
    simp only [loadStep, hstep]
  refine ⟨hls, ?_⟩
  simp only [load, if_pos trivial, hls]

/-- C9: after an in-bounds cache miss (line 590 reads the key
`(col, row, zoom)` with the `zoom` argument) followed by a successful
download and sniff, the bytes are inserted with the key
`(col, row, self.zoom)` (line 622 passes the instance attribute), so the
written key equals the read key exactly when `self.zoom = zoom`. -/
theorem serviceGetTile_insert_key (tm2 : TileMatrix) (selfZoom : ℕ)
    (net : ℤ → ℤ → ℕ → Option Bytes) (sniff : Bytes → Option String)
    (cache : List TileRow) (now : ℚ) (col row : ℤ) (zoom : ℕ) (x y : ℚ)
    (bytes : Bytes) (fmt : String)
    (hxy : tm2.getTileCoords col row zoom = some (x, y))
    (h1 : ¬(row < 0 ∨ col < 0))
    (hbb : (tm2.xmin ≤ x ∧ x < tm2.xmax) ∧ (tm2.ymin < y ∧ y ≤ tm2.ymax))
    (hmiss : validateCached sniff (gpkgGetTile cache now col row (zoom : ℤ)).1
      = none)
    (hnet : net col row zoom = some bytes) (hsniff : sniff bytes = some fmt) :
    serviceGetTile tm2 selfZoom net sniff cache now col row zoom =
      some ⟨some bytes, putTile cache col row (selfZoom : ℤ) bytes now,
        [(col, row, (zoom : ℤ))], [(col, row, zoom)],
        [(col, row, (selfZoom : ℤ))]⟩ ∧
    ((col, row, (selfZoom : ℤ)) = (col, row, (zoom : ℤ)) ↔
      (selfZoom : ℤ) = (zoom : ℤ)) := by
  constructor
  · simp only [serviceGetTile, hxy]
    rw [if_neg h1, if_neg (by tauto)]
    simp only [hmiss, hnet, hsniff]
  · simp [Prod.ext_iff]

/-- C10: whenever `col < 0` or `row < 0`, or the top-left corner `(x, y)`
of the tile falls outside `xmin ≤ x < xmax`, `ymin < y ≤ ymax` of the
matrix global bbox, `getTile` returns `None` having read no cache tile,
issued no network request and written nothing to the cache. -/
theorem serviceGetTile_bounds_guard (tm2 : TileMatrix) (selfZoom : ℕ)
    (net : ℤ → ℤ → ℕ → Option Bytes) (sniff : Bytes → Option String)
    (cache : List TileRow) (now : ℚ) (col row : ℤ) (zoom : ℕ) (x y : ℚ)
    (hxy : tm2.getTileCoords col row zoom = some (x, y))
    (hout : col < 0 ∨ row < 0 ∨ ¬(tm2.xmin ≤ x ∧ x < tm2.xmax) ∨
      ¬(tm2.ymin < y ∧ y ≤ tm2.ymax)) :
    serviceGetTile tm2 selfZoom net sniff cache now col row zoom =
      some ⟨none, cache, [], [], []⟩ := by
  simp only [serviceGetTile, hxy]
  by_cases h1 : row < 0 ∨ col < 0
  · rw [if_pos h1]
  · rw [if_neg h1, if_pos (by tauto)]

/-- A network oracle whose every request fails. -/
def netNone : ℤ → ℤ → ℕ → Option Bytes := fun _ _ _ => none

/-- A sniffing oracle recognizing nothing as an image. -/
def sniffNone : Bytes → Option String := fun _ => none

/-- A network oracle answering every request with the byte string `[1]`. -/
def netOne : ℤ → ℤ → ℕ → Option Bytes := fun _ _ _ => some [1]

/-- A sniffing oracle recognizing everything as a png. -/
def sniffPng : Bytes → Option String := fun _ => some "png"

/-- Concrete worker context for the C8 witness: matrix `tmNW`, zoom 0,
failing network, first tile (0, 0). -/
def cfgC8 : LoadCfg :=
  ⟨tmNW, 0, netNone, sniffNone, fun _ => false, 0, 0, 0⟩

/-- C8 (witness): on an empty cache with a failing network, tile (1, 1) is
pasted blank at (256, 256), the cache stays empty, and the loop moves on. -/
theorem load_failed_tile_blank_witness :
    loadStep cfgC8 ⟨[], [], 0⟩ (1, 1) =
      some ⟨[], [((256, 256), TileImg.blank)], 1⟩ ∧
    load cfgC8 true [(1, 1)] ⟨[], [], 0⟩ =
      load cfgC8 true [] ⟨[], [((256, 256), TileImg.blank)], 1⟩ := by
  have h := load_failed_tile_blank cfgC8 1 1 [] ⟨[], [], 0⟩ 256 744
    (by norm_num [cfgC8, tmNW, TileMatrix.getTileCoords, TileMatrix.getRes,
      TileMatrix.originx, TileMatrix.originy])
    (by norm_num) (by norm_num [cfgC8, tmNW]) rfl (Or.inl rfl)
  refine ⟨h.1.trans ?_, h.2.trans ?_⟩ <;> norm_num [cfgC8, tmNW]

/-- C9 (witness): with instance zoom 1 and argument zoom 0 on an empty
cache, the lookup key is (1, 1, 0) but the inserted row is keyed
zoom_level 1, and the two keys differ. -/
theorem serviceGetTile_insert_key_witness :
    serviceGetTile tmNW 1 netOne sniffPng [] 0 1 1 0 =
      some ⟨some [1], [⟨1, 1, 1, [1], 0⟩], [(1, 1, 0)], [(1, 1, 0)],
        [(1, 1, 1)]⟩ ∧
    ¬(((1 : ℤ), (1 : ℤ), (1 : ℤ)) = ((1 : ℤ), (1 : ℤ), (0 : ℤ))) := by
  have h := serviceGetTile_insert_key tmNW 1 netOne sniffPng [] 0 1 1 0
    256 744 [1] "png"
    (by norm_num [tmNW, TileMatrix.getTileCoords, TileMatrix.getRes,
      TileMatrix.originx, TileMatrix.originy])
    (by norm_num) (by norm_num [tmNW]) rfl rfl rfl
  refine ⟨h.1.trans ?_, fun heq => ?_⟩
  · norm_num [putTile, sameTileKey]
  · exact absurd (h.2.mp (by exact_mod_cast heq)) (by norm_num)

/-- C10 (witness): the tile (-1, 0) of `tmNW` at zoom 0 is rejected by the
guard with no cache read, no network request and no cache write. -/
theorem serviceGetTile_bounds_guard_witness :
    serviceGetTile tmNW 0 netNone sniffNone [] 0 (-1) 0 0 =
      some ⟨none, [], [], [], []⟩ :=
  serviceGetTile_bounds_guard tmNW 0 netNone sniffNone [] 0 (-1) 0 0
    (-256) 1000
    (by norm_num [tmNW, TileMatrix.getTileCoords, TileMatrix.getRes,
      TileMatrix.originx, TileMatrix.originy])
    (Or.inl (by norm_num))

end Mapviewer
